import Mathlib

/-!
Shallow embedding of the client-side upload/processing queue in
`src/public/app.js`: the item model, the response normalisers
(`normaliseStatus`, `normaliseProgress`), the upload handler
(`uploadFile`), the processing-request orchestrator
(`requestProcessing`), the polling pass (`pollStatuses`) and the
server-update merge (`updateItemFromServer`).

JavaScript conventions used throughout the embedding:
* optional string fields are `Option String`; a field is JS-truthy
  exactly when it is present and non-empty (`strTruthy`);
* `a || b` on such fields is `jsOrS`;
* JSON numbers are rationals; `JSValue` covers the payload values the
  code inspects with `typeof`/`Number.isNaN`;
* `Math.round` is `jsRound` (floor of `x + 1/2`, matching JS
  round-half-toward-positive-infinity semantics).
-/

namespace ImageQueue

/-- A loosely-typed JSON/JS value as seen by the normalisers.
`undef` stands for an absent field (`undefined`). -/
inductive JSValue where
  | undef
  | null
  | num (q : ℚ)
  | nan
  | str (s : String)
  | bool (b : Bool)
deriving DecidableEq, Repr

/-- `typeof v === "number"` (true for `NaN` as well). -/
def JSValue.isNumber : JSValue → Bool
  | .num _ => true
  | .nan => true
  | _ => false

/-- JS truthiness of an optional string: present and non-empty. -/
def strTruthy : Option String → Bool
  | none => false
  | some s => s != ""

/-- JS `a || b` on optional strings: `a` if truthy, else `b`. -/
def jsOrS (a b : Option String) : Option String :=
  if strTruthy a then a else b

/-- JS `a || b || c` on optional strings. -/
def jsOr3 (a b c : Option String) : Option String :=
  jsOrS a (jsOrS b c)

/-- JS `o || dflt` producing a plain string (`dflt` when `o` is falsy). -/
def jsGetStr (o : Option String) (dflt : String) : String :=
  match o with
  | none => dflt
  | some s => if s = "" then dflt else s

/-- JS `Math.round` on a rational: floor of `x + 1/2`. (`Rat.floor` is
used so the kernel can evaluate it on concrete inputs.) -/
def jsRound (q : ℚ) : ℤ :=
  (q + 1/2).floor

theorem jsRound_eq_floor (q : ℚ) : jsRound q = ⌊q + 1/2⌋ :=
  rfl

/-- `normaliseProgress` (app.js 798-806): non-numbers and `NaN` map to 0;
a number `≤ 1` is scaled as a fraction; otherwise rounded as a
percentage. -/
def normaliseProgress : JSValue → ℤ
  | .num q => if q ≤ 1 then jsRound (q * 100) else jsRound q
  | _ => 0

/-- JS `String.prototype.toLowerCase` on the ASCII status labels the
code compares against (defined over the character list so the kernel
can evaluate it on concrete labels). -/
def jsToLower (s : String) : String :=
  ⟨s.data.map Char.toLower⟩

/-- The `switch` table of `normaliseStatus` (app.js 770-795), applied to
the lower-cased label. -/
def statusTable (s : String) : String :=
  if s = "queued" ∨ s = "waiting" ∨ s = "pending" then "uploaded"
  else if s = "uploading" then "uploading"
  else if s = "uploaded" ∨ s = "ready" then "uploaded"
  else if s = "processing" ∨ s = "in_progress" then "processing"
  else if s = "processed" ∨ s = "completed" ∨ s = "complete" ∨ s = "success" ∨ s = "done"
    then "processed"
  else if s = "failed" ∨ s = "error" ∨ s = "errored" then "failed"
  else s

/-- `normaliseStatus` (app.js 765-796): falsy input gives `null`
(`none`); otherwise the lower-cased label is mapped through the table,
unknown labels passing through verbatim. -/
def normaliseStatus (v : Option String) : Option String :=
  match v with
  | none => none
  | some s => if s = "" then none else some (statusTable (jsToLower s))

/-- The transient file payload handed to `queueFile` (identity fields
only; the bytes are irrelevant to the state machine). -/
structure JSFile where
  name : String
  size : ℤ
  lastModified : ℤ
deriving DecidableEq, Repr

/-- One queue item, with exactly the fields `queueFile` (app.js 216-233)
creates. `status` is a string because `normaliseStatus` lets unknown
labels pass through verbatim. -/
structure Item where
  clientId : String
  name : String
  size : ℤ
  lastModified : ℤ
  status : String
  progress : ℤ
  file : Option JSFile
  originalPreviewUrl : Option String
  originalUrl : Option String
  processedPreviewUrl : Option String
  createdAt : ℤ
  message : String
  serverId : Option String
  processedUrl : Option String
  downloadOriginalUrl : Option String
  downloadProcessedUrl : Option String
deriving DecidableEq, Repr

/-- `canRequestProcessing` (app.js 705-707). -/
def canRequestProcessing (item : Item) : Bool :=
  strTruthy item.serverId && (item.status == "uploaded" || item.status == "failed")

/-- `shouldPoll` (app.js 709-711): the `isPollable` predicate. -/
def shouldPoll (item : Item) : Bool :=
  strTruthy item.serverId &&
    (item.status == "uploading" || item.status == "uploaded" || item.status == "processing")

/-- The decoded JSON body of an upload response (app.js 265-281); every
field the handler reads. `progress` is a `JSValue` because the code
checks `payload?.progress !== undefined` before normalising. -/
structure UploadPayload where
  id : Option String
  uploadId : Option String
  uuid : Option String
  fileId : Option String
  identifier : Option String
  status : Option String
  state : Option String
  progress : JSValue
  originalUrl : Option String
  sourceUrl : Option String
  downloadOriginalUrl : Option String
  originalDownloadUrl : Option String
  processedUrl : Option String
  resultUrl : Option String
  processedDownloadUrl : Option String
  downloadUrl : Option String
  message : Option String
deriving DecidableEq, Repr

/-- All fields absent: the value of `payload?.x` when the response body
was not JSON (`payload = null`). -/
def emptyUploadPayload : UploadPayload :=
  { id := none, uploadId := none, uuid := none, fileId := none, identifier := none
    status := none, state := none, progress := JSValue.undef
    originalUrl := none, sourceUrl := none, downloadOriginalUrl := none
    originalDownloadUrl := none, processedUrl := none, resultUrl := none
    processedDownloadUrl := none, downloadUrl := none, message := none }

/-- The optimistic prologue of `uploadFile` (app.js 246-248). -/
def uploadFileStart (item : Item) : Item :=
  { item with status := "uploading", progress := 0, message := "" }

/-- The success branch of `uploadFile` (app.js 272-286): identifier
aliases with fallback to the existing `serverId` then `clientId`,
status/progress normalisation with defaults, URL merges, release of the
file handle, and the `processed ⇒ progress = 100` override. -/
def uploadFileSuccess (item : Item) (payload : Option UploadPayload) : Item :=
  let p := payload.getD emptyUploadPayload
  let identifier :=
    jsGetStr (jsOrS p.id (jsOrS p.uploadId (jsOrS p.uuid (jsOrS p.fileId
      (jsOrS p.identifier item.serverId))))) item.clientId
  let item :=
    { item with
      serverId := some identifier
      status := (normaliseStatus (jsOrS p.status p.state)).getD "uploaded"
      progress := if p.progress = JSValue.undef then 100 else normaliseProgress p.progress
      originalUrl := jsOrS p.originalUrl (jsOrS p.sourceUrl item.originalUrl)
      downloadOriginalUrl :=
        jsOrS p.downloadOriginalUrl (jsOrS p.originalDownloadUrl item.downloadOriginalUrl)
      processedUrl := jsOrS p.processedUrl (jsOrS p.resultUrl item.processedUrl)
      downloadProcessedUrl :=
        jsOrS p.processedDownloadUrl (jsOrS p.downloadUrl item.downloadProcessedUrl)
      message := jsGetStr p.message ""
      file := none }
  if item.status = "processed" then { item with progress := 100 } else item

/-- The catch branch of `uploadFile` (app.js 293-301). `errText` is the
message of the thrown error (response text for a non-ok response,
transport error text otherwise). Note that `item.file` is not touched
on this path. -/
def uploadFileFailure (item : Item) (errText : Option String) : Item :=
  { item with
    status := "failed"
    progress := 0
    message := jsGetStr errText "Upload failed" }

/-- Outcome of the upload network call: a decodable-or-null JSON body on
a 2xx response, or a failure (non-ok response or transport error). -/
inductive UploadOutcome where
  | ok (payload : Option UploadPayload)
  | err (errText : Option String)
deriving DecidableEq, Repr

/-- `uploadFile` (app.js 241-302) as a function of the item and the
network outcome: the no-file guard, the `uploading` prologue, then the
success or failure branch. -/
def uploadFileModel (item : Item) (outcome : UploadOutcome) : Item :=
  if item.file.isNone then item
  else
    match outcome with
    | .ok payload => uploadFileSuccess (uploadFileStart item) payload
    | .err errText => uploadFileFailure (uploadFileStart item) errText

/-- One per-item record of a poll response (app.js 578-599, 647-703):
every field `pollStatuses`/`updateItemFromServer` reads. -/
structure PollRecord where
  id : Option String
  uploadId : Option String
  uuid : Option String
  fileId : Option String
  identifier : Option String
  status : Option String
  state : Option String
  stage : Option String
  progress : JSValue
  percentage : JSValue
  originalUrl : Option String
  sourceUrl : Option String
  thumbnailUrl : Option String
  processedUrl : Option String
  resultUrl : Option String
  previewUrl : Option String
  processedPreviewUrl : Option String
  downloadOriginalUrl : Option String
  originalDownloadUrl : Option String
  downloadProcessedUrl : Option String
  downloadUrl : Option String
  resultDownloadUrl : Option String
  errors : Option (List String)
  error : Option String
  message : Option String
  zipUrl : Option String
deriving DecidableEq, Repr

/-- `Array.isArray(payload.errors) && payload.errors.length` (app.js 686). -/
def errsNonEmpty (p : PollRecord) : Bool :=
  !(p.errors.getD []).isEmpty

/-- The revocation guard of app.js 698: a locally-owned blob preview
superseded by a different server-provided original location. -/
def revokeCheck (opu ou : Option String) : Bool :=
  strTruthy opu && (opu.getD "").startsWith "blob:" && strTruthy ou && ou != opu

/-- app.js 652-655: apply the normalised status label, if any. -/
def uifsStatusStep (p : PollRecord) (i : Item) : Item :=
  match normaliseStatus (jsOr3 p.status p.state p.stage) with
  | some st => { i with status := st }
  | none => i

/-- app.js 657-661: apply a numeric `progress`, else a numeric
`percentage`. -/
def uifsProgressStep (p : PollRecord) (i : Item) : Item :=
  if p.progress.isNumber then { i with progress := normaliseProgress p.progress }
  else if p.percentage.isNumber then { i with progress := normaliseProgress p.percentage }
  else i

/-- app.js 663-665: overwrite `originalUrl` only when the payload
carries a truthy alternative. -/
def uifsOriginalUrlStep (p : PollRecord) (i : Item) : Item :=
  if strTruthy (jsOr3 p.originalUrl p.sourceUrl p.thumbnailUrl) then
    { i with originalUrl := jsOr3 p.originalUrl p.sourceUrl p.thumbnailUrl }
  else i

/-- app.js 667-669: overwrite `processedUrl` only when the payload
carries a truthy alternative. -/
def uifsProcessedUrlStep (p : PollRecord) (i : Item) : Item :=
  if strTruthy (jsOr3 p.processedUrl p.resultUrl p.previewUrl) then
    { i with processedUrl := jsOr3 p.processedUrl p.resultUrl p.previewUrl }
  else i

/-- app.js 671-676: adopt a payload `processedPreviewUrl`, backfilling a
falsy `processedUrl` with it. -/
def uifsProcessedPreviewStep (p : PollRecord) (i : Item) : Item :=
  if strTruthy p.processedPreviewUrl then
    if strTruthy i.processedUrl then { i with processedPreviewUrl := p.processedPreviewUrl }
    else
      { i with
        processedPreviewUrl := p.processedPreviewUrl
        processedUrl := p.processedPreviewUrl }
  else i

/-- app.js 678-680. -/
def uifsDlOriginalStep (p : PollRecord) (i : Item) : Item :=
  if strTruthy (jsOrS p.downloadOriginalUrl p.originalDownloadUrl) then
    { i with downloadOriginalUrl := jsOrS p.downloadOriginalUrl p.originalDownloadUrl }
  else i

/-- app.js 682-684. -/
def uifsDlProcessedStep (p : PollRecord) (i : Item) : Item :=
  if strTruthy (jsOr3 p.downloadProcessedUrl p.downloadUrl p.resultDownloadUrl) then
    { i with downloadProcessedUrl := jsOr3 p.downloadProcessedUrl p.downloadUrl p.resultDownloadUrl }
  else i

/-- app.js 686-694: a non-empty errors list, else a truthy `error`,
forces failure and overwrites the message; else a truthy `message`
only updates the message. -/
def uifsErrorStep (p : PollRecord) (i : Item) : Item :=
  if errsNonEmpty p then
    { i with status := "failed", message := String.intercalate " " (p.errors.getD []) }
  else if strTruthy p.error then
    { i with status := "failed", message := p.error.getD "" }
  else if strTruthy p.message then
    { i with message := p.message.getD "" }
  else i

/-- app.js 696-702: a final `processed` status forces full progress and
revokes a superseded local blob preview. -/
def uifsProcessedFinalStep (i : Item) : Item :=
  if i.status = "processed" then
    if revokeCheck i.originalPreviewUrl i.originalUrl then
      { i with progress := 100, originalPreviewUrl := none }
    else { i with progress := 100 }
  else i

/-- `updateItemFromServer` (app.js 647-703): the source's conditional
field writes, applied in source order. -/
def updateItemFromServer (item : Item) (p : PollRecord) : Item :=
  uifsProcessedFinalStep
    (uifsErrorStep p
      (uifsDlProcessedStep p
        (uifsDlOriginalStep p
          (uifsProcessedPreviewStep p
            (uifsProcessedUrlStep p
              (uifsOriginalUrlStep p
                (uifsProgressStep p
                  (uifsStatusStep p item))))))))

/-- The module-level `state` object plus the module-level
`pollErrorNotified` flag (app.js 47-53). The timer handle is modelled
as the optional interval id. -/
structure AppState where
  items : List Item
  batchDownloadUrl : Option String
  pollTimer : Option Nat
  pollErrorNotified : Bool
deriving DecidableEq, Repr

/-- `queueFile` (app.js 213-239): construct the fresh item, push it, and
reset `batchDownloadUrl` to `null`. `clientId`, `createdAt` and the
preview object URL are produced by the environment and passed in. -/
def queueFile (s : AppState) (f : JSFile) (clientId : String) (previewUrl : Option String)
    (now : ℤ) : AppState :=
  let item : Item :=
    { clientId := clientId
      name := f.name
      size := f.size
      lastModified := f.lastModified
      status := "queued"
      progress := 0
      file := some f
      originalPreviewUrl := previewUrl
      originalUrl := none
      processedPreviewUrl := none
      createdAt := now
      message := ""
      serverId := none
      processedUrl := none
      downloadOriginalUrl := none
      downloadProcessedUrl := none }
  { s with items := s.items ++ [item], batchDownloadUrl := none }

/-- One captured rollback entry of `requestProcessing` (app.js 309-320).
The source keeps the object reference; the embedding keys the entry by
the item's unique `clientId`. -/
structure RPSnap where
  clientId : String
  status : String
  message : String
deriving DecidableEq, Repr

/-- `state.items.find(item => item.serverId === id)` (app.js 311). -/
def findByServerId (items : List Item) (id : String) : Option Item :=
  items.find? (fun it => it.serverId == some id)

/-- First item whose `clientId` is `cid`. -/
def findByClientId (items : List Item) (cid : String) : Option Item :=
  items.find? (fun it => it.clientId == cid)

/-- The snapshot pass of `requestProcessing` (app.js 309-320): for each
id, the first matching item's `(status, message)`; ids without a match
are dropped (`filter(Boolean)`). -/
def snapshotFor (items : List Item) (ids : List String) : List RPSnap :=
  ids.filterMap (fun id =>
    (findByServerId items id).map (fun it =>
      { clientId := it.clientId, status := it.status, message := it.message }))

/-- The optimistic transition applied to every snapshotted item
(app.js 322-328): `processing`, cleared message, progress raised to at
least 5. -/
def optimisticItem (it : Item) : Item :=
  { it with
    status := "processing"
    message := ""
    progress := if it.progress < 5 then 5 else it.progress }

/-- `snapshots.forEach(...)` of app.js 322-328 over the item list:
items whose `clientId` was snapshotted receive the optimistic
transition. -/
def applyOptimistic (items : List Item) (snaps : List RPSnap) : List Item :=
  items.map (fun it =>
    if snaps.any (fun sn => sn.clientId == it.clientId) then optimisticItem it else it)

/-- Replace the first element satisfying `p` by its image under `f`
(in-place mutation of the item found by a linear search). -/
def updateFirst (p : Item → Bool) (f : Item → Item) : List Item → List Item
  | [] => []
  | it :: rest => if p it then f it :: rest else it :: updateFirst p f rest

/-- The rollback pass of `requestProcessing` (app.js 371-374): each
snapshot restores its item's `status` and `message`. -/
def applyRollback (items : List Item) (snaps : List RPSnap) : List Item :=
  snaps.foldl
    (fun acc sn =>
      updateFirst (fun it => it.clientId == sn.clientId)
        (fun it => { it with status := sn.status, message := sn.message }) acc)
    items

/-- Outcome of the `/api/process` call: an ok response (with the
optional `zipUrl` of its decoded body) or a failure (non-ok response or
transport error). -/
inductive ProcOutcome where
  | ok (zipUrl : Option String)
  | err (errText : Option String)
deriving DecidableEq, Repr

/-- What `requestProcessing` did: the final store, whether the network
request was issued, and the snapshots it captured. -/
structure RPResult where
  state : AppState
  networkCalled : Bool
  snapshots : List RPSnap
deriving DecidableEq, Repr

/-- `requestProcessing` (app.js 304-380) as a function of the store, the
(possibly absent) id list, the network outcome, and an interleaving
function `u` standing for whatever per-item poll updates land while the
request is in flight (applied between the optimistic transition and the
response handling; poll updates never change `clientId`).
`ensurePolling`'s timer bookkeeping is not modelled here: no claim
depends on it and it touches neither items nor `batchDownloadUrl`. -/
def requestProcessingModel (s : AppState) (ids : Option (List String)) (u : Item → Item)
    (outcome : ProcOutcome) : RPResult :=
  match ids with
  | none => { state := s, networkCalled := false, snapshots := [] }
  | some l =>
    if l.isEmpty then { state := s, networkCalled := false, snapshots := [] }
    else
      let snaps := snapshotFor s.items l
      let items₁ := applyOptimistic s.items snaps
      let items₂ := items₁.map u
      match outcome with
      | .ok zipUrl =>
        { state :=
            { s with
              items := items₂
              batchDownloadUrl := if strTruthy zipUrl then zipUrl else s.batchDownloadUrl }
          networkCalled := true
          snapshots := snaps }
      | .err _ =>
        { state := { s with items := applyRollback items₂ snaps }
          networkCalled := true
          snapshots := snaps }

/-- `stopPolling` (app.js 538-544): clear the interval (if any) and
reset the error-suppression flag. -/
def stopPolling (s : AppState) : AppState :=
  { s with pollTimer := none, pollErrorNotified := false }

/-- One iteration of the `updates.forEach` loop of `pollStatuses`
(app.js 578-600), over the loop state `(items, latestZipUrl)`: resolve
the identifier aliases and return (`if (!identifier) return;`) when no
alias is truthy; locate the item by `serverId` then `clientId` and
return (`if (!item) return;`) when none matches; otherwise backfill a
missing `serverId`, merge the record, and only then adopt a truthy
record `zipUrl` into `latestZipUrl`. -/
def pollRecordStep (st : List Item × Option String) (r : PollRecord) :
    List Item × Option String :=
  let identifier := jsOrS r.id (jsOrS r.uploadId (jsOr3 r.uuid r.fileId r.identifier))
  if strTruthy identifier then
    let ident := identifier.getD ""
    if (st.1.find? (fun it => it.serverId == some ident || it.clientId == ident)).isSome then
      (updateFirst (fun it => it.serverId == some ident || it.clientId == ident)
        (fun it =>
          let it := if strTruthy it.serverId then it else { it with serverId := some ident }
          updateItemFromServer it r)
        st.1,
       if strTruthy r.zipUrl then r.zipUrl else st.2)
    else st
  else st

/-- Outcome of the status poll call: an ok response, already coerced by
`normaliseStatusPayload` (app.js 628-645) to the record list, together
with the top-level `zipUrl` of the body; or a failure (non-ok response
or transport error). A null body is `ok [] none`. -/
inductive PollOutcome where
  | ok (records : List PollRecord) (zipUrl : Option String)
  | err
deriving DecidableEq, Repr

/-- One `pollStatuses` pass (app.js 546-626): self-stop when nothing is
pollable, otherwise apply all updates, adopt the most recent truthy
`zipUrl` (top-level body field winning over per-record ones), re-check
pollability, and on failure notify once per outage. The returned flag
says whether the network request was issued. -/
def pollPass (s : AppState) (outcome : PollOutcome) : AppState × Bool :=
  let ids := (s.items.filter shouldPoll).map (fun it => it.serverId.getD "")
  if ids.isEmpty then (stopPolling s, false)
  else
    match outcome with
    | .ok records zipUrl =>
      let s := { s with pollErrorNotified := false }
      let res := records.foldl pollRecordStep (s.items, none)
      let items := res.1
      let latestZip := if strTruthy zipUrl then zipUrl else res.2
      let s :=
        { s with
          items := items
          batchDownloadUrl := if strTruthy latestZip then latestZip else s.batchDownloadUrl }
      (if items.any shouldPoll then s else stopPolling s, true)
    | .err =>
      (if s.pollErrorNotified then s else { s with pollErrorNotified := true }, true)

/-! ### Per-field characterisation of `updateItemFromServer`

Closed-form descriptions of each field of the merged item, proved
equal to the sequential definition in
`updateItemFromServer_char`. -/

/-- The normalised status label carried by a poll record. -/
def nextStatusOf (p : PollRecord) : Option String :=
  normaliseStatus (jsOr3 p.status p.state p.stage)

/-- Status change made by the error/message block alone. -/
def statusErrStep (p : PollRecord) (st : String) : String :=
  if errsNonEmpty p then "failed"
  else if strTruthy p.error then "failed"
  else st

/-- Final status of a merged item whose status was `st`. -/
def statusAfter (p : PollRecord) (st : String) : String :=
  statusErrStep p ((nextStatusOf p).getD st)

/-- Progress after the numeric-field writes (before the `processed`
override). -/
def progressCore (p : PollRecord) (pr : ℤ) : ℤ :=
  if p.progress.isNumber then normaliseProgress p.progress
  else if p.percentage.isNumber then normaliseProgress p.percentage
  else pr

/-- Final progress of a merged item with prior status `st` and prior
progress `pr`. -/
def progressAfter (p : PollRecord) (st : String) (pr : ℤ) : ℤ :=
  if statusAfter p st = "processed" then 100 else progressCore p pr

/-- Final message of a merged item whose message was `msg`. -/
def messageAfter (p : PollRecord) (msg : String) : String :=
  if errsNonEmpty p then String.intercalate " " (p.errors.getD [])
  else if strTruthy p.error then p.error.getD ""
  else if strTruthy p.message then p.message.getD ""
  else msg

/-- Final `originalUrl` of a merged item. -/
def originalUrlAfter (p : PollRecord) (ou : Option String) : Option String :=
  if strTruthy (jsOr3 p.originalUrl p.sourceUrl p.thumbnailUrl) then
    jsOr3 p.originalUrl p.sourceUrl p.thumbnailUrl
  else ou

/-- `processedUrl` after the direct overwrite (before the
`processedPreviewUrl` backfill). -/
def processedUrlMid (p : PollRecord) (pu : Option String) : Option String :=
  if strTruthy (jsOr3 p.processedUrl p.resultUrl p.previewUrl) then
    jsOr3 p.processedUrl p.resultUrl p.previewUrl
  else pu

/-- `processedUrl` change made by the `processedPreviewUrl` backfill
alone. -/
def processedUrlBackfill (p : PollRecord) (pu : Option String) : Option String :=
  if strTruthy p.processedPreviewUrl && !(strTruthy pu) then p.processedPreviewUrl else pu

/-- Final `processedUrl` of a merged item. -/
def processedUrlAfter (p : PollRecord) (pu : Option String) : Option String :=
  processedUrlBackfill p (processedUrlMid p pu)

/-- Final `processedPreviewUrl` of a merged item. -/
def processedPreviewUrlAfter (p : PollRecord) (ppu : Option String) : Option String :=
  if strTruthy p.processedPreviewUrl then p.processedPreviewUrl else ppu

/-- Final `downloadOriginalUrl` of a merged item. -/
def dlOriginalAfter (p : PollRecord) (d : Option String) : Option String :=
  if strTruthy (jsOrS p.downloadOriginalUrl p.originalDownloadUrl) then
    jsOrS p.downloadOriginalUrl p.originalDownloadUrl
  else d

/-- Final `downloadProcessedUrl` of a merged item. -/
def dlProcessedAfter (p : PollRecord) (d : Option String) : Option String :=
  if strTruthy (jsOr3 p.downloadProcessedUrl p.downloadUrl p.resultDownloadUrl) then
    jsOr3 p.downloadProcessedUrl p.downloadUrl p.resultDownloadUrl
  else d

/-- Final `originalPreviewUrl` of a merged item with prior status `st`,
prior preview `opu` and prior `originalUrl` `ou`. -/
def originalPreviewUrlAfter (p : PollRecord) (st : String) (opu ou : Option String) :
    Option String :=
  if statusAfter p st = "processed" then
    if revokeCheck opu (originalUrlAfter p ou) then none else opu
  else opu

theorem uifsStatusStep_char (p : PollRecord) (i : Item) :
    uifsStatusStep p i = { i with status := (nextStatusOf p).getD i.status } := by
  unfold uifsStatusStep nextStatusOf
  cases normaliseStatus (jsOr3 p.status p.state p.stage) <;> rfl

theorem uifsProgressStep_char (p : PollRecord) (i : Item) :
    uifsProgressStep p i = { i with progress := progressCore p i.progress } := by
  unfold uifsProgressStep progressCore
  split_ifs <;> rfl

theorem uifsOriginalUrlStep_char (p : PollRecord) (i : Item) :
    uifsOriginalUrlStep p i = { i with originalUrl := originalUrlAfter p i.originalUrl } := by
  unfold uifsOriginalUrlStep originalUrlAfter
  split_ifs <;> rfl

theorem uifsProcessedUrlStep_char (p : PollRecord) (i : Item) :
    uifsProcessedUrlStep p i = { i with processedUrl := processedUrlMid p i.processedUrl } := by
  unfold uifsProcessedUrlStep processedUrlMid
  split_ifs <;> rfl

theorem uifsProcessedPreviewStep_char (p : PollRecord) (i : Item) :
    uifsProcessedPreviewStep p i =
      { i with
        processedPreviewUrl := processedPreviewUrlAfter p i.processedPreviewUrl
        processedUrl := processedUrlBackfill p i.processedUrl } := by
  unfold uifsProcessedPreviewStep processedPreviewUrlAfter processedUrlBackfill
  by_cases h1 : strTruthy p.processedPreviewUrl <;>
    by_cases h2 : strTruthy i.processedUrl <;>
    simp [h1, h2]

theorem uifsDlOriginalStep_char (p : PollRecord) (i : Item) :
    uifsDlOriginalStep p i =
      { i with downloadOriginalUrl := dlOriginalAfter p i.downloadOriginalUrl } := by
  unfold uifsDlOriginalStep dlOriginalAfter
  split_ifs <;> rfl

theorem uifsDlProcessedStep_char (p : PollRecord) (i : Item) :
    uifsDlProcessedStep p i =
      { i with downloadProcessedUrl := dlProcessedAfter p i.downloadProcessedUrl } := by
  unfold uifsDlProcessedStep dlProcessedAfter
  split_ifs <;> rfl

theorem uifsErrorStep_char (p : PollRecord) (i : Item) :
    uifsErrorStep p i =
      { i with status := statusErrStep p i.status, message := messageAfter p i.message } := by
  unfold uifsErrorStep statusErrStep messageAfter
  split_ifs <;> rfl

theorem uifsProcessedFinalStep_char (i : Item) :
    uifsProcessedFinalStep i =
      { i with
        progress := if i.status = "processed" then 100 else i.progress
        originalPreviewUrl :=
          if i.status = "processed" then
            if revokeCheck i.originalPreviewUrl i.originalUrl then none else i.originalPreviewUrl
          else i.originalPreviewUrl } := by
  unfold uifsProcessedFinalStep
  split_ifs <;> rfl

/-- `updateItemFromServer` computes exactly the per-field closed forms
above; `clientId`, `name`, `size`, `lastModified`, `createdAt`, `file`
and `serverId` are untouched. -/
theorem updateItemFromServer_char (i : Item) (p : PollRecord) :
    updateItemFromServer i p =
      { i with
        status := statusAfter p i.status
        progress := progressAfter p i.status i.progress
        message := messageAfter p i.message
        originalUrl := originalUrlAfter p i.originalUrl
        processedUrl := processedUrlAfter p i.processedUrl
        processedPreviewUrl := processedPreviewUrlAfter p i.processedPreviewUrl
        downloadOriginalUrl := dlOriginalAfter p i.downloadOriginalUrl
        downloadProcessedUrl := dlProcessedAfter p i.downloadProcessedUrl
        originalPreviewUrl :=
          originalPreviewUrlAfter p i.status i.originalPreviewUrl i.originalUrl } := by
  simp only [updateItemFromServer, uifsStatusStep_char, uifsProgressStep_char,
    uifsOriginalUrlStep_char, uifsProcessedUrlStep_char, uifsProcessedPreviewStep_char,
    uifsDlOriginalStep_char, uifsDlProcessedStep_char, uifsErrorStep_char,
    uifsProcessedFinalStep_char]
  rfl

/-! ### Concrete fixtures used by witnesses and counterexamples -/

/-- A small image file. -/
def sampleFile : JSFile :=
  { name := "photo.jpg", size := 1024, lastModified := 111 }

/-- The item `queueFile` creates for `sampleFile` (client id `"c1"`,
created at time 0, preview object URL `blob:p1`). -/
def sampleQueuedItem : Item :=
  { clientId := "c1"
    name := "photo.jpg"
    size := 1024
    lastModified := 111
    status := "queued"
    progress := 0
    file := some sampleFile
    originalPreviewUrl := some "blob:p1"
    originalUrl := none
    processedPreviewUrl := none
    createdAt := 0
    message := ""
    serverId := none
    processedUrl := none
    downloadOriginalUrl := none
    downloadProcessedUrl := none }

/-- `sampleQueuedItem` after a plain successful upload: server id
`abc123`, ready for processing. -/
def sampleUploadedItem : Item :=
  { sampleQueuedItem with
    status := "uploaded"
    progress := 100
    file := none
    serverId := some "abc123" }

/-- A poll record with every field absent. -/
def emptyPollRecord : PollRecord :=
  { id := none, uploadId := none, uuid := none, fileId := none, identifier := none
    status := none, state := none, stage := none
    progress := JSValue.undef, percentage := JSValue.undef
    originalUrl := none, sourceUrl := none, thumbnailUrl := none
    processedUrl := none, resultUrl := none, previewUrl := none
    processedPreviewUrl := none
    downloadOriginalUrl := none, originalDownloadUrl := none
    downloadProcessedUrl := none, downloadUrl := none, resultDownloadUrl := none
    errors := none, error := none, message := none, zipUrl := none }

/-! ### C8 — progress normalisation -/

/-- C8: `normaliseProgress` maps a numeric value `≤ 1` to
`round(value × 100)`, any other numeric value to `round(value)`, and
every non-numeric or `NaN` input to 0; in particular `0.42 ↦ 42`,
`75 ↦ 75`, and `"bad"` or an absent value `↦ 0`. -/
theorem normalise_progress_spec :
    (∀ q : ℚ, normaliseProgress (.num q) = if q ≤ 1 then jsRound (q * 100) else jsRound q) ∧
    (∀ s, normaliseProgress (.str s) = 0) ∧
    normaliseProgress .nan = 0 ∧
    normaliseProgress .undef = 0 ∧
    normaliseProgress .null = 0 ∧
    (∀ b, normaliseProgress (.bool b) = 0) ∧
    normaliseProgress (.num (42/100)) = 42 ∧
    normaliseProgress (.num 75) = 75 ∧
    normaliseProgress (.str "bad") = 0 := by
  refine ⟨fun q => rfl, fun s => rfl, rfl, rfl, rfl, fun b => rfl, ?_, ?_, rfl⟩
  · norm_num [normaliseProgress, jsRound_eq_floor, Int.floor_eq_iff]
  · norm_num [normaliseProgress, jsRound_eq_floor, Int.floor_eq_iff]

/-! ### C10 — empty processing request is a no-op -/

/-- C10: calling `requestProcessing` with an absent or empty id list
returns immediately: no snapshot is taken, no item is mutated, no
network request is issued, and the store is exactly as before. -/
theorem request_processing_empty_noop :
    ∀ (s : AppState) (u : Item → Item) (o : ProcOutcome),
      requestProcessingModel s none u o
          = { state := s, networkCalled := false, snapshots := [] } ∧
      requestProcessingModel s (some []) u o
          = { state := s, networkCalled := false, snapshots := [] } :=
  fun _ _ _ => ⟨rfl, rfl⟩

/-! ### C7 — the polling loop stops itself -/

/-- C7: when every tracked item has status `processed` or `failed` or
lacks a `serverId`, a `pollStatuses` pass clears the timer, resets the
error-suppression flag, touches nothing else, and issues no network
call. -/
theorem poll_pass_self_stops (s : AppState) (o : PollOutcome)
    (h : ∀ it ∈ s.items,
      it.status = "processed" ∨ it.status = "failed" ∨ it.serverId = none) :
    pollPass s o = ({ s with pollTimer := none, pollErrorNotified := false }, false) := by
  have hf : s.items.filter shouldPoll = [] := by
    refine List.filter_eq_nil_iff.mpr fun it hit => ?_
    rcases h it hit with h1 | h1 | h1 <;> simp [shouldPoll, h1, strTruthy]
  unfold pollPass stopPolling
  simp [hf]

/-- Witness for C7 at a concrete store holding one processed item and a
live timer. -/
theorem poll_pass_self_stops_witness :
    pollPass
      { items := [{ sampleUploadedItem with status := "processed" }]
        batchDownloadUrl := none, pollTimer := some 7, pollErrorNotified := true }
      PollOutcome.err
      = ({ items := [{ sampleUploadedItem with status := "processed" }]
           batchDownloadUrl := none, pollTimer := none, pollErrorNotified := false }, false) :=
  poll_pass_self_stops _ _ (by intro it hit; simp at hit; subst hit; left; rfl)

/-! ### C3 — upload failure handling -/

/-- Counterexample to C3 as stated: on upload failure the transient
file handle is NOT released (the failure branch never clears
`item.file`), unlike the success branch. -/
theorem upload_failure_keeps_file_counterexample :
    (uploadFileModel sampleQueuedItem (.err (some "Network error"))).file = some sampleFile ∧
    (uploadFileModel sampleQueuedItem (.ok none)).file = none := by
  constructor <;> rfl

/-- C3 as amended: on upload failure the item becomes `failed` with
progress 0 and the server-provided text (or the generic description) as
message, but the transient file handle is retained; it is released only
on the success path. -/
theorem upload_failure_amended (it : Item) (f : JSFile) (e : Option String)
    (hf : it.file = some f) :
    (uploadFileModel it (.err e)).status = "failed" ∧
    (uploadFileModel it (.err e)).progress = 0 ∧
    (∀ t, e = some t → t ≠ "" → (uploadFileModel it (.err e)).message = t) ∧
    (e = none → (uploadFileModel it (.err e)).message = "Upload failed") ∧
    (uploadFileModel it (.err e)).file = some f ∧
    (∀ pl, (uploadFileModel it (.ok pl)).file = none) := by
  have hn : it.file.isNone = false := by simp [hf]
  refine ⟨?_, ?_, ?_, ?_, ?_, ?_⟩
  · simp [uploadFileModel, hn, uploadFileFailure]
  · simp [uploadFileModel, hn, uploadFileFailure]
  · intro t ht hne
    simp [uploadFileModel, hn, uploadFileFailure, uploadFileStart, ht, jsGetStr, hne]
  · intro ht
    simp [uploadFileModel, hn, uploadFileFailure, uploadFileStart, ht, jsGetStr]
  · simp [uploadFileModel, hn, uploadFileFailure, uploadFileStart, hf]
  · intro pl
    simp [uploadFileModel, hn, uploadFileSuccess, uploadFileStart]
    split <;> rfl

/-- Witness for the amended C3 at `sampleQueuedItem` with a transport
error. -/
theorem upload_failure_amended_witness :
    (uploadFileModel sampleQueuedItem (.err (some "boom"))).status = "failed" ∧
    (uploadFileModel sampleQueuedItem (.err (some "boom"))).message = "boom" ∧
    (uploadFileModel sampleQueuedItem (.err (some "boom"))).file = some sampleFile := by
  have h := upload_failure_amended sampleQueuedItem sampleFile (some "boom") rfl
  exact ⟨h.1, h.2.2.1 "boom" rfl (by decide), h.2.2.2.2.1⟩

/-! ### C4 — the batch download URL -/

/-- A store that already holds a batch archive location. -/
def sampleBatchState : AppState :=
  { items := [sampleUploadedItem]
    batchDownloadUrl := some "https://example.com/batch.zip"
    pollTimer := none
    pollErrorNotified := false }

/-- Counterexample to C4 as stated: `queueFile` (adding a new file to
the queue) resets `batchDownloadUrl` to `null`, so the location is not
retained across every subsequent operation. -/
theorem batch_url_cleared_on_enqueue_counterexample :
    sampleBatchState.batchDownloadUrl = some "https://example.com/batch.zip" ∧
    (queueFile sampleBatchState sampleFile "c2" none 5).batchDownloadUrl = none :=
  ⟨rfl, rfl⟩

/-- C4 as amended: a processing request and a poll pass never clear
`batchDownloadUrl` — each either leaves it unchanged or replaces it
with a non-empty location — but enqueueing a new file resets it. -/
theorem batch_url_amended :
    ∀ (s : AppState) (ids : Option (List String)) (u : Item → Item)
      (oc : ProcOutcome) (op : PollOutcome),
      ((requestProcessingModel s ids u oc).state.batchDownloadUrl = s.batchDownloadUrl ∨
        ∃ z, z ≠ "" ∧
          (requestProcessingModel s ids u oc).state.batchDownloadUrl = some z) ∧
      ((pollPass s op).1.batchDownloadUrl = s.batchDownloadUrl ∨
        ∃ z, z ≠ "" ∧ (pollPass s op).1.batchDownloadUrl = some z) ∧
      (∀ f cid pv now, (queueFile s f cid pv now).batchDownloadUrl = none) := by
  intro s ids u oc op
  refine ⟨?_, ?_, fun f cid pv now => rfl⟩
  · match ids with
    | none => left; rfl
    | some l =>
      by_cases hl : l.isEmpty
      · left; simp [requestProcessingModel, hl]
      · match oc with
        | .err e => left; simp [requestProcessingModel, hl]
        | .ok zipUrl =>
          by_cases hz : strTruthy zipUrl
          · right
            match zipUrl, hz with
            | some z, hz =>
              exact ⟨z, by simpa [strTruthy] using hz, by simp [requestProcessingModel, hl, hz]⟩
          · left; simp [requestProcessingModel, hl, hz]
  · unfold pollPass
    by_cases hids : ((s.items.filter shouldPoll).map (fun it => it.serverId.getD "")).isEmpty
    · left; simp [hids, stopPolling]
    · simp only [hids]
      match op with
      | .err => by_cases hn : s.pollErrorNotified <;> simp [hn]
      | .ok records zipUrl =>
        set lz := if strTruthy zipUrl then zipUrl
          else (records.foldl pollRecordStep (s.items, none)).2 with hlz
        by_cases hz : strTruthy lz
        · right
          match lz, hz with
          | some z, hz =>
            refine ⟨z, by simpa [strTruthy] using hz, ?_⟩
            simp only [Bool.false_eq_true, if_false, ← hlz, hz, if_true]
            split <;> simp [stopPolling]
        · left
          simp only [Bool.false_eq_true, if_false, ← hlz, hz]
          split <;> simp [stopPolling]

/-! ### C6 — error fields in poll records -/

/-- C6: in a poll record, a non-empty `errors` list or a truthy single
`error` field forces the merged item's status to `failed` and
overwrites its message (joined errors, or the error text), regardless
of the record's progress value; a `message` field alone updates the
message without changing the status. -/
theorem poll_error_forces_failed :
    ∀ (i : Item) (p : PollRecord),
      (∀ es, p.errors = some es → es ≠ [] →
        (updateItemFromServer i p).status = "failed" ∧
        (updateItemFromServer i p).message = String.intercalate " " es) ∧
      (p.errors.getD [] = [] → ∀ e, p.error = some e → e ≠ "" →
        (updateItemFromServer i p).status = "failed" ∧
        (updateItemFromServer i p).message = e) ∧
      (p.errors.getD [] = [] → strTruthy p.error = false →
        p.status = none → p.state = none → p.stage = none →
        ∀ m, p.message = some m → m ≠ "" →
        (updateItemFromServer i p).status = i.status ∧
        (updateItemFromServer i p).message = m) := by
  intro i p
  refine ⟨?_, ?_, ?_⟩
  · intro es hes hne
    have h1 : errsNonEmpty p = true := by simp [errsNonEmpty, hes, hne]
    rw [updateItemFromServer_char]
    simp [statusAfter, statusErrStep, messageAfter, h1, hes]
  · intro h0 e he hne
    have h1 : errsNonEmpty p = false := by simp [errsNonEmpty, h0]
    have h2 : strTruthy (some e) = true := by simp [strTruthy, hne]
    rw [updateItemFromServer_char]
    simp [statusAfter, statusErrStep, messageAfter, h1, he, h2]
  · intro h0 herr hs hst hsg m hm hmne
    have h1 : errsNonEmpty p = false := by simp [errsNonEmpty, h0]
    have h3 : strTruthy (some m) = true := by simp [strTruthy, hmne]
    have h4 : nextStatusOf p = none := by
      simp [nextStatusOf, jsOr3, jsOrS, hs, hst, hsg, strTruthy, normaliseStatus]
    rw [updateItemFromServer_char]
    simp [statusAfter, statusErrStep, messageAfter, h1, herr, h4, hm, h3]

/-- A poll record carrying an errors list together with a high progress
value. -/
def sampleErrRecord : PollRecord :=
  { emptyPollRecord with errors := some ["disk full", "retry later"], progress := JSValue.num 99 }

/-- Witness for C6: the errors list wins over the progress value in the
same record. -/
theorem poll_error_forces_failed_witness :
    (updateItemFromServer sampleUploadedItem sampleErrRecord).status = "failed" ∧
    (updateItemFromServer sampleUploadedItem sampleErrRecord).message = "disk full retry later" :=
  (poll_error_forces_failed sampleUploadedItem sampleErrRecord).1
    ["disk full", "retry later"] rfl (by decide)

/-! ### C9 — idempotence of the poll merge -/

theorem statusAfter_idem (p : PollRecord) (st : String) :
    statusAfter p (statusAfter p st) = statusAfter p st := by
  unfold statusAfter statusErrStep
  cases nextStatusOf p <;> split_ifs <;> rfl

theorem progressCore_idem (p : PollRecord) (pr : ℤ) :
    progressCore p (progressCore p pr) = progressCore p pr := by
  unfold progressCore
  split_ifs <;> rfl

theorem progressAfter_idem (p : PollRecord) (st : String) (pr : ℤ) :
    progressAfter p (statusAfter p st) (progressAfter p st pr) = progressAfter p st pr := by
  unfold progressAfter
  rw [statusAfter_idem]
  by_cases h : statusAfter p st = "processed"
  · simp [h]
  · simp [h, progressCore_idem]

theorem messageAfter_idem (p : PollRecord) (msg : String) :
    messageAfter p (messageAfter p msg) = messageAfter p msg := by
  unfold messageAfter
  split_ifs <;> rfl

theorem originalUrlAfter_idem (p : PollRecord) (ou : Option String) :
    originalUrlAfter p (originalUrlAfter p ou) = originalUrlAfter p ou := by
  unfold originalUrlAfter
  split_ifs <;> rfl

theorem processedUrlAfter_idem (p : PollRecord) (pu : Option String) :
    processedUrlAfter p (processedUrlAfter p pu) = processedUrlAfter p pu := by
  unfold processedUrlAfter processedUrlBackfill processedUrlMid
  by_cases hg : strTruthy (jsOr3 p.processedUrl p.resultUrl p.previewUrl) <;>
    by_cases ht : strTruthy p.processedPreviewUrl <;>
    by_cases hpu : strTruthy pu <;>
    simp [hg, ht, hpu]

theorem processedPreviewUrlAfter_idem (p : PollRecord) (ppu : Option String) :
    processedPreviewUrlAfter p (processedPreviewUrlAfter p ppu)
      = processedPreviewUrlAfter p ppu := by
  unfold processedPreviewUrlAfter
  split_ifs <;> rfl

theorem dlOriginalAfter_idem (p : PollRecord) (d : Option String) :
    dlOriginalAfter p (dlOriginalAfter p d) = dlOriginalAfter p d := by
  unfold dlOriginalAfter
  split_ifs <;> rfl

theorem dlProcessedAfter_idem (p : PollRecord) (d : Option String) :
    dlProcessedAfter p (dlProcessedAfter p d) = dlProcessedAfter p d := by
  unfold dlProcessedAfter
  split_ifs <;> rfl

theorem originalPreviewUrlAfter_idem (p : PollRecord) (st : String) (opu ou : Option String) :
    originalPreviewUrlAfter p (statusAfter p st)
        (originalPreviewUrlAfter p st opu ou) (originalUrlAfter p ou)
      = originalPreviewUrlAfter p st opu ou := by
  unfold originalPreviewUrlAfter
  rw [statusAfter_idem, originalUrlAfter_idem]
  by_cases h : statusAfter p st = "processed"
  · simp only [h, if_true]
    by_cases hr : revokeCheck opu (originalUrlAfter p ou)
    · have h2 : revokeCheck (none : Option String) (originalUrlAfter p ou) = false := by
        simp [revokeCheck, strTruthy]
      simp [hr, h2]
    · simp [hr]
  · simp [h]

/-- C9: applying the same poll record to an item twice produces the
same item as applying it once. -/
theorem update_item_idempotent (i : Item) (p : PollRecord) :
    updateItemFromServer (updateItemFromServer i p) p = updateItemFromServer i p := by
  simp only [updateItemFromServer_char]
  simp only [statusAfter_idem, progressAfter_idem, messageAfter_idem, originalUrlAfter_idem,
    processedUrlAfter_idem, processedPreviewUrlAfter_idem, dlOriginalAfter_idem,
    dlProcessedAfter_idem, originalPreviewUrlAfter_idem]

/-! ### C2 — the progress range invariant -/

/-- The spec's progress invariant. -/
def progressInRange (n : ℤ) : Prop :=
  0 ≤ n ∧ n ≤ 100

/-- An item mid-processing, used to exercise poll merges. -/
def sampleProcessingItem : Item :=
  { sampleUploadedItem with status := "processing", progress := 50 }

/-- A poll record reporting progress 150. -/
def sampleRecord150 : PollRecord :=
  { emptyPollRecord with progress := JSValue.num 150 }

/-- A poll record reporting progress −0.2. -/
def sampleRecordNeg : PollRecord :=
  { emptyPollRecord with progress := JSValue.num (-(1:ℚ)/5) }

/-- Counterexample to C2 as stated: numeric server progress values
above 100 or below 0 are stored outside `[0,100]` (the code clamps only
when rendering, not when mutating). -/
theorem progress_range_counterexample :
    (updateItemFromServer sampleProcessingItem sampleRecord150).progress = 150 ∧
    (updateItemFromServer sampleProcessingItem sampleRecordNeg).progress = -20 ∧
    ¬((updateItemFromServer sampleProcessingItem sampleRecord150).progress ≤ 100) ∧
    ¬(0 ≤ (updateItemFromServer sampleProcessingItem sampleRecordNeg).progress) := by
  have h1 : (updateItemFromServer sampleProcessingItem sampleRecord150).progress = 150 := by
    rw [updateItemFromServer_char]
    norm_num [progressAfter, statusAfter, statusErrStep, errsNonEmpty, strTruthy, nextStatusOf,
      jsOr3, jsOrS, normaliseStatus, progressCore, JSValue.isNumber, normaliseProgress,
      jsRound_eq_floor, sampleRecord150, sampleProcessingItem, sampleUploadedItem,
      sampleQueuedItem, emptyPollRecord, Int.floor_eq_iff]
    decide
  have h2 : (updateItemFromServer sampleProcessingItem sampleRecordNeg).progress = -20 := by
    rw [updateItemFromServer_char]
    norm_num [progressAfter, statusAfter, statusErrStep, errsNonEmpty, strTruthy, nextStatusOf,
      jsOr3, jsOrS, normaliseStatus, progressCore, JSValue.isNumber, normaliseProgress,
      jsRound_eq_floor, sampleRecordNeg, sampleProcessingItem, sampleUploadedItem,
      sampleQueuedItem, emptyPollRecord, Int.floor_eq_iff]
    decide
  refine ⟨h1, h2, ?_, ?_⟩ <;> omega

theorem jsRound_range (q : ℚ) (h0 : 0 ≤ q) (h1 : q ≤ 100) :
    0 ≤ jsRound q ∧ jsRound q ≤ 100 := by
  rw [jsRound_eq_floor]
  constructor
  · refine Int.le_floor.mpr ?_
    push_cast
    linarith
  · have h2 : ⌊q + 1/2⌋ < 101 := by
      refine Int.floor_lt.mpr ?_
      push_cast
      linarith
    omega

/-- `normaliseProgress` lands in `[0,100]` whenever every numeric input
value lies in `[0,100]`. -/
theorem normaliseProgress_range (v : JSValue)
    (h : ∀ q, v = JSValue.num q → 0 ≤ q ∧ q ≤ 100) :
    progressInRange (normaliseProgress v) := by
  cases v <;> simp [normaliseProgress, progressInRange]
  case num q =>
    obtain ⟨h0, h1⟩ := h q rfl
    by_cases hq : q ≤ 1
    · simp only [hq, if_true]
      exact jsRound_range (q * 100) (by positivity) (by linarith)
    · simp only [hq, if_false]
      exact jsRound_range q h0 h1

/-- All numeric progress fields of a poll record lie in `[0,100]`. -/
def pollProgressOk (p : PollRecord) : Prop :=
  (∀ q, p.progress = JSValue.num q → 0 ≤ q ∧ q ≤ 100) ∧
  (∀ q, p.percentage = JSValue.num q → 0 ≤ q ∧ q ≤ 100)

theorem mem_updateFirst (p : Item → Bool) (f : Item → Item) (l : List Item) (a : Item)
    (h : a ∈ updateFirst p f l) : a ∈ l ∨ ∃ b ∈ l, a = f b := by
  induction l with
  | nil => simp [updateFirst] at h
  | cons x xs ih =>
    unfold updateFirst at h
    by_cases hp : p x
    · simp only [hp, if_true, List.mem_cons] at h
      rcases h with h | h
      · right; exact ⟨x, by simp, h⟩
      · left; simp [h]
    · simp only [hp, Bool.false_eq_true, if_false, List.mem_cons] at h
      rcases h with h | h
      · left; simp [h]
      · rcases ih h with h' | ⟨b, hb, rfl⟩
        · left; simp [h']
        · right; exact ⟨b, by simp [hb], rfl⟩

theorem progress_mem_applyRollback (snaps : List RPSnap) :
    ∀ (items : List Item) (it : Item), it ∈ applyRollback items snaps →
      ∃ b ∈ items, it.progress = b.progress := by
  induction snaps with
  | nil => intro items it h; exact ⟨it, h, rfl⟩
  | cons sn rest ih =>
    intro items it h
    have h' : it ∈ applyRollback
        (updateFirst (fun x => x.clientId == sn.clientId)
          (fun x => { x with status := sn.status, message := sn.message }) items) rest := h
    obtain ⟨b, hb, hpb⟩ := ih _ it h'
    rcases mem_updateFirst _ _ _ b hb with hbm | ⟨c, hc, rfl⟩
    · exact ⟨b, hbm, hpb⟩
    · exact ⟨c, hc, hpb⟩

/-- C2 as amended: every mutation keeps `progress` in `[0,100]`
provided the item's prior progress is in range and every numeric
server-supplied progress value is in `[0,100]`; out-of-range numeric
values (e.g. 150 or −0.2) are stored as-is, clamped only at render
time. -/
theorem progress_range_amended :
    ∀ (i : Item) (p : PollRecord) (up : UploadPayload) (e : Option String),
      (progressInRange i.progress → pollProgressOk p →
        progressInRange (updateItemFromServer i p).progress) ∧
      ((∀ q, up.progress = JSValue.num q → 0 ≤ q ∧ q ≤ 100) →
        progressInRange (uploadFileSuccess i (some up)).progress) ∧
      progressInRange (uploadFileSuccess i none).progress ∧
      progressInRange (uploadFileFailure i e).progress ∧
      progressInRange (uploadFileStart i).progress ∧
      (progressInRange i.progress → progressInRange (optimisticItem i).progress) ∧
      (∀ s f cid pv now it, it ∈ (queueFile s f cid pv now).items →
        it ∈ s.items ∨ it.progress = 0) ∧
      (∀ items snaps it, it ∈ applyRollback items snaps →
        ∃ b ∈ items, it.progress = b.progress) := by
  intro i p up e
  refine ⟨?_, ?_, ?_, ?_, ?_, ?_, ?_, ?_⟩
  · intro hi hp
    rw [updateItemFromServer_char]
    simp only [progressAfter]
    split_ifs with h1
    · exact ⟨by omega, by omega⟩
    · unfold progressCore
      split_ifs with h2 h3
      · exact normaliseProgress_range _ hp.1
      · exact normaliseProgress_range _ hp.2
      · exact hi
  · intro hup
    unfold uploadFileSuccess
    dsimp only
    split_ifs with h1 h2 <;> dsimp only
    · exact ⟨by omega, by omega⟩
    · exact ⟨by omega, by omega⟩
    · exact normaliseProgress_range _ hup
  · unfold uploadFileSuccess
    dsimp only
    split_ifs <;> norm_num [Option.getD, emptyUploadPayload, progressInRange, normaliseProgress]
  · norm_num [uploadFileFailure, progressInRange]
  · norm_num [uploadFileStart, progressInRange]
  · intro hi
    unfold optimisticItem
    dsimp only
    split_ifs with h
    · exact ⟨by omega, by omega⟩
    · exact hi
  · intro s f cid pv now it hit
    unfold queueFile at hit
    dsimp only at hit
    rcases List.mem_append.mp hit with h | h
    · exact Or.inl h
    · right
      simp only [List.mem_singleton] at h
      simp [h]
  · intro items snaps it h
    exact progress_mem_applyRollback snaps items it h

/-- Witness for the amended C2: an in-range fractional progress value
keeps the stored progress in range. -/
theorem progress_range_amended_witness :
    progressInRange
      ((updateItemFromServer sampleProcessingItem
        { emptyPollRecord with progress := JSValue.num (1/2) }).progress) := by
  refine (progress_range_amended sampleProcessingItem
      { emptyPollRecord with progress := JSValue.num (1/2) }
      emptyUploadPayload none).1 ?_ ?_
  · exact ⟨by norm_num [sampleProcessingItem, sampleUploadedItem, sampleQueuedItem],
      by norm_num [sampleProcessingItem, sampleUploadedItem, sampleQueuedItem]⟩
  · constructor
    · intro q hq
      have hq' : (1/2 : ℚ) = q := by
        have := hq
        simp only [emptyPollRecord] at this
        injection this
      constructor <;> rw [← hq'] <;> norm_num
    · intro q hq
      simp [emptyPollRecord] at hq

/-! ### C5 — upload success normalisation -/

theorem jsGetStr_eq (o : Option String) (d : String) :
    jsGetStr o d = if strTruthy o then o.getD d else d := by
  cases o with
  | none => rfl
  | some s => by_cases h : s = "" <;> simp [jsGetStr, strTruthy, h]

/-- The claim's "first non-empty" selector over optional strings. -/
def firstNonEmpty : List (Option String) → Option String
  | [] => none
  | o :: rest => if strTruthy o then o else firstNonEmpty rest

/-- The claim's description of the upload-response identifier: first
non-empty of the alias fields, falling back to the pre-existing
`serverId` and then to the `clientId`. -/
def specUploadServerId (p : UploadPayload) (i : Item) : String :=
  (firstNonEmpty [p.id, p.uploadId, p.uuid, p.fileId, p.identifier, i.serverId]).getD i.clientId

theorem uploadServerId_eq (p : UploadPayload) (i : Item) :
    jsGetStr (jsOrS p.id (jsOrS p.uploadId (jsOrS p.uuid (jsOrS p.fileId
        (jsOrS p.identifier i.serverId))))) i.clientId = specUploadServerId p i := by
  unfold specUploadServerId
  simp only [firstNonEmpty, jsOrS, jsGetStr_eq]
  by_cases h1 : strTruthy p.id <;> by_cases h2 : strTruthy p.uploadId <;>
    by_cases h3 : strTruthy p.uuid <;> by_cases h4 : strTruthy p.fileId <;>
    by_cases h5 : strTruthy p.identifier <;> by_cases h6 : strTruthy i.serverId <;>
    simp [h1, h2, h3, h4, h5, h6]

theorem uploadFileSuccess_serverId (i : Item) (p : UploadPayload) :
    (uploadFileSuccess i (some p)).serverId
      = some (jsGetStr (jsOrS p.id (jsOrS p.uploadId (jsOrS p.uuid (jsOrS p.fileId
          (jsOrS p.identifier i.serverId))))) i.clientId) := by
  unfold uploadFileSuccess
  dsimp only [Option.getD]
  split_ifs <;> rfl

theorem uploadFileSuccess_status (i : Item) (p : UploadPayload) :
    (uploadFileSuccess i (some p)).status
      = (normaliseStatus (jsOrS p.status p.state)).getD "uploaded" := by
  unfold uploadFileSuccess
  dsimp only [Option.getD]
  split_ifs <;> rfl

theorem uploadFileSuccess_progress (i : Item) (p : UploadPayload) :
    (uploadFileSuccess i (some p)).progress
      = if (normaliseStatus (jsOrS p.status p.state)).getD "uploaded" = "processed" then 100
        else if p.progress = JSValue.undef then 100 else normaliseProgress p.progress := by
  unfold uploadFileSuccess
  dsimp only [Option.getD]
  split_ifs <;> rfl

/-- An upload response whose status label normalises to `processed`
while explicitly reporting fractional progress 0.5. -/
def doneHalfPayload : UploadPayload :=
  { emptyUploadPayload with
    id := some "srv9", status := some "done", progress := JSValue.num (1/2) }

/-- Counterexample to C5 as stated: when the response's status
normalises to `processed`, the handler forces `progress = 100` even
though an explicit progress value (here 0.5, normalising to 50) is
present. -/
theorem upload_processed_overrides_progress_counterexample :
    normaliseProgress (JSValue.num (1/2)) = 50 ∧
    (uploadFileSuccess sampleQueuedItem (some doneHalfPayload)).status = "processed" ∧
    (uploadFileSuccess sampleQueuedItem (some doneHalfPayload)).progress = 100 := by
  refine ⟨?_, ?_, ?_⟩
  · norm_num [normaliseProgress, jsRound_eq_floor, Int.floor_eq_iff]
  · rw [uploadFileSuccess_status]
    decide
  · rw [uploadFileSuccess_progress]
    decide

/-- C5 as amended: a successful upload response yields the claim's
`serverId` (first non-empty alias, then the pre-existing `serverId`,
then the `clientId`), the normalised status defaulting to `uploaded`,
and — unless the resulting status is `processed`, which forces 100 —
the normalised explicit progress when present, else 100; the file
handle is released. -/
theorem upload_success_amended :
    ∀ (i : Item) (p : UploadPayload),
      (uploadFileSuccess i (some p)).serverId = some (specUploadServerId p i) ∧
      (uploadFileSuccess i (some p)).status
          = (normaliseStatus (jsOrS p.status p.state)).getD "uploaded" ∧
      ((uploadFileSuccess i (some p)).status ≠ "processed" →
        (uploadFileSuccess i (some p)).progress
          = if p.progress = JSValue.undef then 100 else normaliseProgress p.progress) ∧
      ((uploadFileSuccess i (some p)).status = "processed" →
        (uploadFileSuccess i (some p)).progress = 100) ∧
      (uploadFileSuccess i (some p)).file = none := by
  intro i p
  refine ⟨?_, uploadFileSuccess_status i p, ?_, ?_, ?_⟩
  · rw [uploadFileSuccess_serverId, uploadServerId_eq]
  · intro h
    rw [uploadFileSuccess_status] at h
    rw [uploadFileSuccess_progress, if_neg h]
  · intro h
    rw [uploadFileSuccess_status] at h
    rw [uploadFileSuccess_progress, if_pos h]
  · unfold uploadFileSuccess
    dsimp only [Option.getD]
    split_ifs <;> rfl

/-- The reference upload response of the claim. -/
def uploadedPayload : UploadPayload :=
  { emptyUploadPayload with
    id := some "abc123", status := some "uploaded", progress := JSValue.num 100 }

/-- Witness for the amended C5 at the claim's concrete example:
`{id:"abc123", status:"uploaded", progress:100}`. -/
theorem upload_success_amended_witness :
    (uploadFileSuccess sampleQueuedItem (some uploadedPayload)).serverId = some "abc123" ∧
    (uploadFileSuccess sampleQueuedItem (some uploadedPayload)).status = "uploaded" ∧
    (uploadFileSuccess sampleQueuedItem (some uploadedPayload)).progress = 100 := by
  obtain ⟨h1, h2, h3, h4, h5⟩ := upload_success_amended sampleQueuedItem uploadedPayload
  refine ⟨?_, ?_, ?_⟩
  · rw [h1]; decide
  · rw [h2]; decide
  · rw [h3 (by rw [h2]; decide)]
    norm_num [uploadedPayload, emptyUploadPayload, normaliseProgress, jsRound_eq_floor,
      Int.floor_eq_iff]

/-! ### C1 — snapshot rollback on processing failure -/

theorem find?_updateFirst (p : Item → Bool) (f : Item → Item) (l : List Item)
    (hf : ∀ a, p a = true → p (f a) = true) :
    (updateFirst p f l).find? p = (l.find? p).map f := by
  induction l with
  | nil => rfl
  | cons x xs ih =>
    cases hp : p x with
    | true => simp [updateFirst, hp, List.find?_cons, hf x hp]
    | false => simp [updateFirst, hp, List.find?_cons, ih]

theorem find?_updateFirst_disjoint (p q : Item → Bool) (f : Item → Item) (l : List Item)
    (hpq : ∀ a, p a = true → q a = false)
    (hq : ∀ a, q (f a) = q a) :
    (updateFirst p f l).find? q = l.find? q := by
  induction l with
  | nil => rfl
  | cons x xs ih =>
    cases hp : p x with
    | true =>
      have hqx : q x = false := hpq x hp
      simp [updateFirst, hp, List.find?_cons, hq, hqx]
    | false =>
      cases hqx : q x with
      | true => simp [updateFirst, hp, List.find?_cons, hqx]
      | false => simp [updateFirst, hp, List.find?_cons, hqx, ih]

theorem findByClientId_map (g : Item → Item) (hg : ∀ a, (g a).clientId = a.clientId)
    (l : List Item) (cid : String) :
    findByClientId (l.map g) cid = (findByClientId l cid).map g := by
  unfold findByClientId
  induction l with
  | nil => rfl
  | cons x xs ih =>
    cases h : (x.clientId == cid) with
    | true =>
      have h' : ((g x).clientId == cid) = true := by rw [hg]; exact h
      simp [List.find?_cons, h, h']
    | false =>
      have h' : ((g x).clientId == cid) = false := by rw [hg]; exact h
      simp [List.find?_cons, h, h', ih]

theorem findByClientId_of_mem (l : List Item)
    (hnd : (l.map (fun it => it.clientId)).Nodup) (a : Item) (ha : a ∈ l) :
    findByClientId l a.clientId = some a := by
  unfold findByClientId
  induction l with
  | nil => cases ha
  | cons x xs ih =>
    have hnd1 : x.clientId ∉ xs.map (fun it => it.clientId) := (List.nodup_cons.mp hnd).1
    have hnd2 : (xs.map (fun it => it.clientId)).Nodup := (List.nodup_cons.mp hnd).2
    rcases List.mem_cons.mp ha with rfl | ha'
    · simp [List.find?_cons]
    · have hxa : (x.clientId == a.clientId) = false := by
        by_cases hx : x.clientId = a.clientId
        · refine absurd ?_ hnd1
          rw [hx]
          exact List.mem_map_of_mem _ ha'
        · simpa using hx
      simp [List.find?_cons, hxa, ih hnd2 ha']

theorem findByClientId_applyRollback_not_mem (snaps : List RPSnap) (items : List Item)
    (cid : String) (h : ∀ sn ∈ snaps, sn.clientId ≠ cid) :
    findByClientId (applyRollback items snaps) cid = findByClientId items cid := by
  induction snaps generalizing items with
  | nil => rfl
  | cons sn rest ih =>
    have hstep : applyRollback items (sn :: rest)
        = applyRollback
            (updateFirst (fun it => it.clientId == sn.clientId)
              (fun it => { it with status := sn.status, message := sn.message }) items)
            rest := rfl
    rw [hstep, ih _ (fun s hs => h s (List.mem_cons_of_mem _ hs))]
    exact find?_updateFirst_disjoint _ _ _ _
      (fun a ha => by
        have : a.clientId = sn.clientId := by simpa using ha
        simp [this, h sn (List.mem_cons_self _ _)])
      (fun a => rfl)

theorem findByClientId_applyRollback_mem (snaps : List RPSnap)
    (hnd : (snaps.map (fun sn => sn.clientId)).Nodup) (sn : RPSnap) (hsn : sn ∈ snaps) :
    ∀ items : List Item,
      findByClientId (applyRollback items snaps) sn.clientId
        = (findByClientId items sn.clientId).map
            (fun it => { it with status := sn.status, message := sn.message }) := by
  induction snaps with
  | nil => cases hsn
  | cons sn0 rest ih =>
    intro items
    have hstep : applyRollback items (sn0 :: rest)
        = applyRollback
            (updateFirst (fun it => it.clientId == sn0.clientId)
              (fun it => { it with status := sn0.status, message := sn0.message }) items)
            rest := rfl
    rcases List.mem_cons.mp hsn with rfl | hmem
    · have hno : ∀ s ∈ rest, s.clientId ≠ sn.clientId := by
        intro s hs heq
        have hm : s.clientId ∈ rest.map (fun x => x.clientId) := List.mem_map_of_mem _ hs
        rw [heq] at hm
        exact (List.nodup_cons.mp hnd).1 hm
      rw [hstep, findByClientId_applyRollback_not_mem rest _ _ hno]
      exact find?_updateFirst _ _ _ (fun a ha => ha)
    · have hne : sn0.clientId ≠ sn.clientId := by
        intro heq
        have hm : sn.clientId ∈ rest.map (fun x => x.clientId) := List.mem_map_of_mem _ hmem
        rw [← heq] at hm
        exact (List.nodup_cons.mp hnd).1 hm
      rw [hstep, ih (List.nodup_cons.mp hnd).2 hmem]
      congr 1
      exact find?_updateFirst_disjoint _ _ _ _
        (fun a ha => by
          have : a.clientId = sn0.clientId := by simpa using ha
          simp [this, hne])
        (fun a => rfl)

theorem serverId_of_findByServerId (items : List Item) (id : String) (it : Item)
    (h : findByServerId items id = some it) : it.serverId = some id := by
  have := List.find?_some h
  simpa using this

theorem mem_snapshotFor (items : List Item) (ids : List String) (sn : RPSnap)
    (h : sn ∈ snapshotFor items ids) :
    ∃ it, it ∈ items ∧ it.clientId = sn.clientId ∧ it.status = sn.status ∧
      it.message = sn.message ∧ ∃ id ∈ ids, findByServerId items id = some it := by
  unfold snapshotFor at h
  obtain ⟨id, hid, hsome⟩ := List.mem_filterMap.mp h
  cases hfind : findByServerId items id with
  | none => rw [hfind] at hsome; cases hsome
  | some it =>
    rw [hfind] at hsome
    simp only [Option.map_some'] at hsome
    have h' : ({ clientId := it.clientId, status := it.status, message := it.message } : RPSnap)
        = sn := Option.some.inj hsome
    obtain ⟨hc, hs, hm⟩ : it.clientId = sn.clientId ∧ it.status = sn.status ∧
        it.message = sn.message := by
      rw [← h']
      exact ⟨rfl, rfl, rfl⟩
    exact ⟨it, List.mem_of_find?_eq_some hfind, hc, hs, hm, id, hid, hfind⟩

theorem snapshotFor_clientIds_nodup (items : List Item) (ids : List String)
    (hitems : (items.map (fun it => it.clientId)).Nodup) (hids : ids.Nodup) :
    ((snapshotFor items ids).map (fun sn => sn.clientId)).Nodup := by
  unfold snapshotFor
  rw [List.map_filterMap]
  refine List.Nodup.filterMap ?_ hids
  intro a a' c hca hca'
  rw [Option.mem_def] at hca hca'
  obtain ⟨sn₁, hsn₁, hc₁⟩ := Option.map_eq_some'.mp hca
  obtain ⟨it₁, hf₁, hmk₁⟩ := Option.map_eq_some'.mp hsn₁
  obtain ⟨sn₂, hsn₂, hc₂⟩ := Option.map_eq_some'.mp hca'
  obtain ⟨it₂, hf₂, hmk₂⟩ := Option.map_eq_some'.mp hsn₂
  have hs₁ := serverId_of_findByServerId items a it₁ hf₁
  have hs₂ := serverId_of_findByServerId items a' it₂ hf₂
  have hcc₁ : it₁.clientId = c := by rw [← hc₁, ← hmk₁]
  have hcc₂ : it₂.clientId = c := by rw [← hc₂, ← hmk₂]
  have heq : it₁ = it₂ :=
    List.inj_on_of_nodup_map hitems (List.mem_of_find?_eq_some hf₁)
      (List.mem_of_find?_eq_some hf₂) (by rw [hcc₁, hcc₂])
  rw [heq] at hs₁
  rw [hs₁] at hs₂
  exact Option.some.inj hs₂

/-- C1: when a processing request over a non-empty id list fails, every
snapshotted (targeted) item ends with exactly its captured
`(status, message)` pair, while its progress and URL fields are
whatever they were at failure time — i.e. the item is
`u (optimisticItem it)` with only status and message replaced, where
`u` is the arbitrary interleaved poll advancement. -/
theorem processing_failure_rolls_back (s : AppState) (ids : List String) (u : Item → Item)
    (e : Option String)
    (hne : ids ≠ [])
    (hidsnd : ids.Nodup)
    (hnd : (s.items.map (fun it => it.clientId)).Nodup)
    (hu : ∀ it, (u it).clientId = it.clientId) :
    ∀ sn ∈ snapshotFor s.items ids,
      ∃ it, it ∈ s.items ∧ it.clientId = sn.clientId ∧ it.status = sn.status ∧
        it.message = sn.message ∧
        findByClientId (requestProcessingModel s (some ids) u (.err e)).state.items sn.clientId
          = some { u (optimisticItem it) with status := sn.status, message := sn.message } := by
  intro sn hsn
  obtain ⟨it, hmem, hcid, hst, hmsg, id, hid, hfind⟩ := mem_snapshotFor s.items ids sn hsn
  refine ⟨it, hmem, hcid, hst, hmsg, ?_⟩
  have hempty : ids.isEmpty = false := by
    cases ids with
    | nil => exact absurd rfl hne
    | cons a l => rfl
  have hitems : (requestProcessingModel s (some ids) u (.err e)).state.items
      = applyRollback ((applyOptimistic s.items (snapshotFor s.items ids)).map u)
          (snapshotFor s.items ids) := by
    simp [requestProcessingModel, hempty]
  rw [hitems,
    findByClientId_applyRollback_mem (snapshotFor s.items ids)
      (snapshotFor_clientIds_nodup s.items ids hnd hidsnd) sn hsn,
    findByClientId_map u hu]
  have hgopt : ∀ a : Item,
      ((if (snapshotFor s.items ids).any (fun x => x.clientId == a.clientId) then
          optimisticItem a else a)).clientId = a.clientId := by
    intro a
    split <;> rfl
  rw [show applyOptimistic s.items (snapshotFor s.items ids)
      = s.items.map (fun a =>
          if (snapshotFor s.items ids).any (fun x => x.clientId == a.clientId) then
            optimisticItem a else a) from rfl,
    findByClientId_map _ hgopt, ← hcid, findByClientId_of_mem s.items hnd it hmem]
  have hex : ∃ x ∈ snapshotFor s.items ids, x.clientId = sn.clientId := ⟨sn, hsn, rfl⟩
  simp [hcid, hex]

/-- A per-item poll advancement that bumps progress mid-flight. -/
def sampleInterleave : Item → Item :=
  fun it => { it with progress := 77 }

/-- Witness for C1: one uploaded item, a failing batch of one id, with
an interleaved poll advancement to progress 77. -/
theorem processing_failure_rolls_back_witness :
    ∃ it, it ∈ [sampleUploadedItem] ∧ it.clientId = "c1" ∧ it.status = "uploaded" ∧
      it.message = "" ∧
      findByClientId
          (requestProcessingModel
            { items := [sampleUploadedItem], batchDownloadUrl := none,
              pollTimer := none, pollErrorNotified := false }
            (some ["abc123"]) sampleInterleave (.err (some "boom"))).state.items "c1"
        = some { sampleInterleave (optimisticItem it) with status := "uploaded", message := "" } :=
  processing_failure_rolls_back
    { items := [sampleUploadedItem], batchDownloadUrl := none,
      pollTimer := none, pollErrorNotified := false }
    ["abc123"] sampleInterleave (some "boom") (by decide) (by decide) (by decide)
    (fun it => rfl) { clientId := "c1", status := "uploaded", message := "" } (by decide)

end ImageQueue
